import Mathlib

/-!
Verification of the clipboard shim
(`src/vendor/tao/src/platform_impl/windows/clipboard.rs`) and the About
window (`src/src/about.rs`) of the zerotier DesktopUI repository.

Strings crossing the FFI boundary are modelled as lists of Unicode scalar
values (`List Nat`); byte buffers and UTF-16 buffers are `List Nat` of
bytes resp. 16-bit code units.  OS calls are recorded in an explicit call
trace, `println!` output in a log, and the OS clipboard contents as an
association list from numeric format id to the stored global-memory bytes.
-/

namespace Clip

/-- A Unicode scalar value: in range and not a surrogate. -/
def ValidScalar (v : Nat) : Prop :=
  v < 0x110000 ∧ (v < 0xD800 ∨ 0xE000 ≤ v)

instance (v : Nat) : Decidable (ValidScalar v) := by
  unfold ValidScalar; infer_instance

/-- All elements of the list are Unicode scalar values. -/
def ValidScalars (s : List Nat) : Prop := ∀ v ∈ s, ValidScalar v

instance (s : List Nat) : Decidable (ValidScalars s) := by
  unfold ValidScalars; infer_instance

/-- UTF-8 encoding of one scalar value (Rust `str` byte representation). -/
def utf8EncodeChar (v : Nat) : List Nat :=
  if v < 0x80 then [v]
  else if v < 0x800 then [0xC0 + v / 0x40, 0x80 + v % 0x40]
  else if v < 0x10000 then
    [0xE0 + v / 0x1000, 0x80 + (v / 0x40) % 0x40, 0x80 + v % 0x40]
  else
    [0xF0 + v / 0x40000, 0x80 + (v / 0x1000) % 0x40,
     0x80 + (v / 0x40) % 0x40, 0x80 + v % 0x40]

/-- UTF-8 encoding of a scalar string, as `s.as_bytes()` yields it. -/
def utf8Encode : List Nat → List Nat
  | [] => []
  | v :: vs => utf8EncodeChar v ++ utf8Encode vs

/-- Strict UTF-8 decoding of a byte list (the validity notion of Rust
`str`): rejects overlong forms, surrogates, out-of-range scalars and
truncated sequences. -/
def utf8Decode : List Nat → Option (List Nat)
  | [] => some []
  | b :: rest =>
    if b < 0x80 then (utf8Decode rest).map (fun cs => b :: cs)
    else if b < 0xC2 then none
    else if b < 0xE0 then
      match rest with
      | b1 :: rest1 =>
        if 0x80 ≤ b1 ∧ b1 < 0xC0 then
          (utf8Decode rest1).map (fun cs => ((b - 0xC0) * 0x40 + (b1 - 0x80)) :: cs)
        else none
      | [] => none
    else if b < 0xF0 then
      match rest with
      | b1 :: b2 :: rest2 =>
        if (0x80 ≤ b1 ∧ b1 < 0xC0) ∧ (0x80 ≤ b2 ∧ b2 < 0xC0) ∧
            (b = 0xE0 → 0xA0 ≤ b1) ∧ (b = 0xED → b1 < 0xA0) then
          (utf8Decode rest2).map
            (fun cs => ((b - 0xE0) * 0x1000 + (b1 - 0x80) * 0x40 + (b2 - 0x80)) :: cs)
        else none
      | _ => none
    else if b < 0xF5 then
      match rest with
      | b1 :: b2 :: b3 :: rest3 =>
        if (0x80 ≤ b1 ∧ b1 < 0xC0) ∧ (0x80 ≤ b2 ∧ b2 < 0xC0) ∧
            (0x80 ≤ b3 ∧ b3 < 0xC0) ∧
            (b = 0xF0 → 0x90 ≤ b1) ∧ (b = 0xF4 → b1 < 0x90) then
          (utf8Decode rest3).map
            (fun cs => ((b - 0xF0) * 0x40000 + (b1 - 0x80) * 0x1000 +
              (b2 - 0x80) * 0x40 + (b3 - 0x80)) :: cs)
        else none
      | _ => none
    else none

/-- UTF-16 encoding of one scalar value (`OsStrExt::encode_wide`). -/
def utf16EncodeChar (v : Nat) : List Nat :=
  if v < 0x10000 then [v]
  else [0xD800 + (v - 0x10000) / 0x400, 0xDC00 + (v - 0x10000) % 0x400]

/-- UTF-16 encoding of a scalar string. -/
def utf16Encode : List Nat → List Nat
  | [] => []
  | v :: vs => utf16EncodeChar v ++ utf16Encode vs

/-- Strict UTF-16 decoding of a code-unit list (Rust `String::from_utf16`):
fails on unpaired surrogates. -/
def utf16Decode : List Nat → Option (List Nat)
  | [] => some []
  | u :: rest =>
    if u < 0xD800 ∨ 0xE000 ≤ u then (utf16Decode rest).map (fun cs => u :: cs)
    else if u < 0xDC00 then
      match rest with
      | l :: rest1 =>
        if 0xDC00 ≤ l ∧ l < 0xE000 then
          (utf16Decode rest1).map
            (fun cs => (0x10000 + (u - 0xD800) * 0x400 + (l - 0xDC00)) :: cs)
        else none
      | [] => none
    else none

/-- Little-endian byte image of a 16-bit code-unit buffer, as the wide
string is laid out in the global-memory allocation. -/
def wideToBytes : List Nat → List Nat
  | [] => []
  | u :: us => u % 0x100 :: u / 0x100 :: wideToBytes us

/-- Reading a byte buffer back as 16-bit little-endian code units
(`GlobalLock(handle) as LPWSTR`). -/
def bytesToWide : List Nat → List Nat
  | b0 :: b1 :: rest => (b0 + 0x100 * b1) :: bytesToWide rest
  | _ => []

/-- Modelled from the spec: the shared clipboard module (`src/clipboard.rs`,
not part of the excerpt) defines `ClipboardFormat` as "an identifier string
tag paired with a byte payload". -/
structure ClipboardFormat where
  identifier : String
  data : List Nat
deriving DecidableEq

/-- Modelled from the spec: the "single hardcoded text format" identifier
`ClipboardFormat::TEXT` of the missing `src/clipboard.rs`; the properties
used below are only that it is none of the `STANDARD_FORMATS` names and
contains no NUL byte. -/
def ClipboardFormat.TEXT : String := "text/plain"

/-- Modelled from the spec: the `From` conversion from a string used by
`write_text` (`let format: ClipboardFormat = s.into()`), pairing the text
identifier with the string's UTF-8 bytes. -/
def formatFromStr (s : List Nat) : ClipboardFormat :=
  ⟨ClipboardFormat.TEXT, utf8Encode s⟩

/-- Numeric id `CF_UNICODETEXT` from winapi. -/
def CF_UNICODETEXT : Nat := 13

/-- The `STANDARD_FORMATS` table of well-known clipboard formats. -/
def STANDARD_FORMATS : List (Nat × String) :=
  [(1, "CF_TEXT"),
   (2, "CF_BITMAP"),
   (3, "CF_METAFILEPICT"),
   (4, "CF_SYLK"),
   (5, "CF_DIF"),
   (6, "CF_TIFF"),
   (7, "CF_OEMTEXT"),
   (8, "CF_DIB"),
   (9, "CF_PALETTE"),
   (10, "CF_PENDATA"),
   (11, "CF_RIFF"),
   (12, "CF_WAVE"),
   (13, "CF_UNICODETEXT"),
   (14, "CF_ENHMETAFILE"),
   (15, "CF_HDROP"),
   (16, "CF_LOCALE"),
   (17, "CF_DIBV5"),
   (0x0080, "CF_OWNERDISPLAY"),
   (0x0081, "CF_DSPTEXT"),
   (0x0082, "CF_DSPBITMAP"),
   (0x0083, "CF_DSPMETAFILEPICT"),
   (0x008E, "CF_DSPENHMETAFILE"),
   (0x0200, "CF_PRIVATEFIRST"),
   (0x02FF, "CF_PRIVATELAST"),
   (0x0300, "CF_GDIOBJFIRST"),
   (0x03FF, "CF_GDIOBJLAST")]

/-- One call into the OS clipboard API, with its outcome where the
calling code observes it. -/
inductive OsCall where
  | openClipboard (ok : Bool)
  | closeClipboard
  | emptyClipboard
  | getClipboardData (fmt : Nat)
  | setClipboardData (fmt : Nat) (ok : Bool)
  | registerFormat (name : String) (ok : Bool)
deriving DecidableEq

/-- The OS clipboard contents: numeric format id ↦ bytes of the stored
global-memory block. -/
abbrev ClipState := List (Nat × List Nat)

/-- Environment deciding the outcome of the fallible OS calls. -/
structure OsEnv where
  openOk : Bool
  regId : String → Nat
  setOk : Bool
  lastError : Nat

/-- Model of `GetClipboardData`: the stored block for a format id, `none` for a
null handle. -/
def lookupFmt (st : ClipState) (fmt : Nat) : Option (List Nat) :=
  (st.find? (fun p => p.1 == fmt)).map (fun p => p.2)

/-- A successful `SetClipboardData` stores the block under the format id. -/
def setFmt (st : ClipState) (fmt : Nat) (data : List Nat) : ClipState :=
  (fmt, data) :: st.filter (fun p => p.1 != fmt)

/-- Outcome of one clipboard operation: the new clipboard contents, the
trace of OS calls made, the lines printed to standard output, and the
returned value. -/
structure OpResult (α : Type) where
  state : ClipState
  calls : List OsCall
  log : List String
  val : α
deriving DecidableEq

/-- Source `with_clipboard`: open the clipboard; on failure return `None` without
running the body; otherwise run the body, close the clipboard and return
`Some` of the body's value. -/
def with_clipboard (env : OsEnv) (f : ClipState → OpResult α) (st : ClipState) :
    OpResult (Option α) :=
  if env.openOk then
    let r := f st
    ⟨r.state, OsCall.openClipboard true :: r.calls ++ [OsCall.closeClipboard],
     r.log, some r.val⟩
  else
    ⟨st, [OsCall.openClipboard false], [], none⟩

/-- Whether `ident` has a NUL byte: it does iff it contains the scalar U+0000 (in
UTF-8 the byte 0 encodes only U+0000); this is what `CString::new`
rejects. -/
def hasNulByte (ident : String) : Bool :=
  ident.toList.any (fun c => c.toNat == 0)

/-- Source `register_identifier`: a `CString::new` failure on a NUL byte yields
`None` with a log line and no OS call; otherwise
`RegisterClipboardFormatA` is called, 0 meaning failure (logged). -/
def register_identifier (env : OsEnv) (ident : String) :
    List OsCall × List String × Option Nat :=
  if hasNulByte ident then
    ([], ["Null byte in clipboard identifier '" ++ ident ++ "'"], none)
  else if env.regId ident = 0 then
    ([OsCall.registerFormat ident false],
     ["failed to register clipboard format '" ++ ident ++ "'; error " ++
       toString env.lastError ++ "."],
     none)
  else
    ([OsCall.registerFormat ident true], [], some (env.regId ident))

/-- Source `get_format_id`: the `STANDARD_FORMATS` table first, then the
hardcoded text identifier, then OS registration. -/
def get_format_id (env : OsEnv) (format : String) :
    List OsCall × List String × Option Nat :=
  match STANDARD_FORMATS.find? (fun p => p.2 == format) with
  | some p => ([], [], some p.1)
  | none =>
    if format = ClipboardFormat.TEXT then ([], [], some CF_UNICODETEXT)
    else register_identifier env format

/-- Model of `str::from_utf8_unchecked`: the code asserts UTF-8 validity rather
than checking it; an invalid byte list is undefined behaviour, modelled by
an arbitrary fixed result. -/
def fromUtf8Unchecked (bs : List Nat) : List Nat := (utf8Decode bs).getD []

/-- Source `make_handle`: for the text format, the UTF-16 code units of the data
(read as UTF-8) followed by a null terminator, laid out as bytes in a
global-memory block of `wstr.len() * size_of::<WCHAR>()` bytes; for any
other format a block of `data.len() * size_of::<CHAR>()` bytes holding the
payload verbatim. -/
def make_handle (format : ClipboardFormat) : List Nat :=
  if format.identifier = ClipboardFormat.TEXT then
    wideToBytes (utf16Encode (fromUtf8Unchecked format.data) ++ [0])
  else
    format.data

/-- The `for format in formats` loop of `put_formats`: make the handle,
resolve the format id (skipping the format with a log line when that
fails), then `SetClipboardData`, logging on failure. -/
def put_formats_loop (env : OsEnv) :
    List ClipboardFormat → ClipState → ClipState × List OsCall × List String
  | [], st => (st, [], [])
  | format :: rest, st =>
    let handle := make_handle format
    match get_format_id env format.identifier with
    | (calls, log, none) =>
      let r := put_formats_loop env rest st
      (r.1, calls ++ r.2.1,
       log ++ ["failed to register clipboard format " ++ format.identifier] ++ r.2.2)
    | (calls, log, some format_id) =>
      if env.setOk then
        let r := put_formats_loop env rest (setFmt st format_id handle)
        (r.1, calls ++ [OsCall.setClipboardData format_id true] ++ r.2.1,
         log ++ r.2.2)
      else
        let r := put_formats_loop env rest st
        (r.1, calls ++ [OsCall.setClipboardData format_id false] ++ r.2.1,
         log ++ ["failed to set clipboard for fmt " ++ format.identifier ++
           ", error: " ++ toString env.lastError] ++ r.2.2)

/-- Source `Clipboard::put_formats`: under `with_clipboard`, `EmptyClipboard`
(discarding the previous contents) and then the per-format loop. -/
def put_formats (env : OsEnv) (formats : List ClipboardFormat) (st : ClipState) :
    OpResult (Option Unit) :=
  with_clipboard env (fun _st0 =>
    let r := put_formats_loop env formats []
    ⟨r.1, OsCall.emptyClipboard :: r.2.1, r.2.2, ()⟩) st

/-- Source `Clipboard::write_text`: convert the string into a text-format value
and `put_formats` it. -/
def write_text (env : OsEnv) (s : List Nat) (st : ClipState) :
    OpResult (Option Unit) :=
  put_formats env [formatFromStr s] st

/-- Body of `Clipboard::read_text`: `GetClipboardData(CF_UNICODETEXT)`;
a null handle yields `None`; otherwise the block is read as wide units,
scanned up to the first zero unit, and UTF-16 decoded, a decode failure
yielding `None`. -/
def read_text_body (st : ClipState) : OpResult (Option (List Nat)) :=
  match lookupFmt st CF_UNICODETEXT with
  | none => ⟨st, [OsCall.getClipboardData CF_UNICODETEXT], [], none⟩
  | some handle =>
    let units := bytesToWide handle
    ⟨st, [OsCall.getClipboardData CF_UNICODETEXT], [],
     utf16Decode (units.takeWhile (fun u => u != 0))⟩

/-- Source `Clipboard::read_text`: the body under `with_clipboard`, flattened. -/
def read_text (env : OsEnv) (st : ClipState) : OpResult (Option (List Nat)) :=
  let r := with_clipboard env read_text_body st
  ⟨r.state, r.calls, r.log, r.val.join⟩

/-- Whether an OS call is an `OpenClipboard` acquisition. -/
def isOpenCall : OsCall → Bool
  | OsCall.openClipboard _ => true
  | _ => false

end Clip

namespace About

/-- The effect a libui callback performs on the process. -/
inductive ProcAction where
  | exitWith (code : Nat)
deriving DecidableEq

/-- Callback `on_should_quit`: calls `std::process::exit(0)`. -/
def on_should_quit (_ : Unit) : ProcAction := ProcAction.exitWith 0

/-- Callback `on_window_close`: delegates to `on_should_quit`. -/
def on_window_close (_ : Unit) : ProcAction := on_should_quit ()

/-- Callback `on_ok_button_clicked`: delegates to `on_should_quit`. -/
def on_ok_button_clicked (_ : Unit) : ProcAction := on_should_quit ()

/-- One libui call made by `about_main`, with the registered callback
where one is passed. -/
inductive UiCall where
  | uiInit
  | uiOnShouldQuit (cb : Unit → ProcAction)
  | uiNewWindow (title : String) (x y : Int) (hasMenubar : Int)
  | uiWindowSetMargined (margined : Int)
  | uiWindowOnClosing (cb : Unit → ProcAction)
  | uiNewVerticalBox
  | uiBoxSetPadded (padded : Int)
  | uiNewMultilineEntry
  | uiMultilineEntrySetReadOnly (readonly : Int)
  | uiMultilineEntrySetText (text : String)
  | uiBoxAppend (stretchy : Int)
  | uiNewButton (label : String)
  | uiButtonOnClicked (cb : Unit → ProcAction)
  | uiWindowSetChild
  | uiControlShow
  | uiMain
  | uiUninit

def WINDOW_SIZE_X : Int := 500

def WINDOW_SIZE_Y : Int := 300

/-- The `ABOUT` text constant. -/
def ABOUT : String :=
  "ZeroTier Desktop UI\n\n(c)2021-2022 ZeroTier, Inc.\nReleased under the terms of the Mozilla Public License V2.0 (MPL)\nSource URL: https://github.com/zerotier/DesktopUI\n\nThe following additional open source code was used in this software:\n\n * https://github.com/zserge/tray by Serge Zaitsev (heavily modified)\n * https://github.com/libui-ng/libui-ng by Pietro Gagliardi and others\n"

/-- Outcome of running `about_main` up to the event loop: printed lines,
whether it panicked, and the libui calls it made. -/
structure AboutRun where
  log : List String
  panicked : Bool
  calls : List UiCall

/-- Source `about_main` as a function of the `uiInit` outcome (`none` meaning the
returned error string was null): on error, log and panic before any other
libui call; on success, wire up the window and widgets, run the event loop
and uninitialise, never panicking. -/
def about_main (initErr : Option String) : AboutRun :=
  match initErr with
  | some e =>
    { log := ["libui init error: " ++ e], panicked := true,
      calls := [UiCall.uiInit] }
  | none =>
    { log := [], panicked := false,
      calls := [UiCall.uiInit,
        UiCall.uiOnShouldQuit on_should_quit,
        UiCall.uiNewWindow "About ZeroTier UI" WINDOW_SIZE_X WINDOW_SIZE_Y 1,
        UiCall.uiWindowSetMargined 0,
        UiCall.uiWindowOnClosing on_window_close,
        UiCall.uiNewVerticalBox,
        UiCall.uiBoxSetPadded 1,
        UiCall.uiNewMultilineEntry,
        UiCall.uiMultilineEntrySetReadOnly 1,
        UiCall.uiMultilineEntrySetText ABOUT,
        UiCall.uiBoxAppend 1,
        UiCall.uiNewButton " Ok ",
        UiCall.uiButtonOnClicked on_ok_button_clicked,
        UiCall.uiBoxAppend 0,
        UiCall.uiWindowSetChild,
        UiCall.uiControlShow,
        UiCall.uiMain,
        UiCall.uiUninit] }

end About

namespace Clip

lemma utf16Decode_cons (u : Nat) (rest : List Nat) :
    utf16Decode (u :: rest) =
      (if u < 0xD800 ∨ 0xE000 ≤ u then (utf16Decode rest).map (fun cs => u :: cs)
      else if u < 0xDC00 then
        match rest with
        | l :: rest1 =>
          if 0xDC00 ≤ l ∧ l < 0xE000 then
            (utf16Decode rest1).map
              (fun cs => (0x10000 + (u - 0xD800) * 0x400 + (l - 0xDC00)) :: cs)
          else none
        | [] => none
      else none) := by
  cases rest with
  | nil => rfl
  | cons l rest1 => rfl

/-- Decoding the UTF-16 encoding of one scalar value prepended to any
tail decodes the scalar and continues with the tail. -/
lemma utf16Decode_encodeChar (v : Nat) (rest : List Nat) (hv : ValidScalar v) :
    utf16Decode (utf16EncodeChar v ++ rest) =
      (utf16Decode rest).map (fun cs => v :: cs) := by
  obtain ⟨h1, h2⟩ := hv
  unfold utf16EncodeChar
  by_cases hbmp : v < 0x10000
  · rw [if_pos hbmp]
    simp only [List.cons_append, List.nil_append, utf16Decode_cons]
    rw [if_pos (by omega)]
  · rw [if_neg hbmp]
    simp only [List.cons_append, List.nil_append, utf16Decode_cons]
    rw [if_neg (by omega), if_pos (by omega)]
    rw [if_pos (show 0xDC00 ≤ 0xDC00 + (v - 0x10000) % 0x400 ∧
      0xDC00 + (v - 0x10000) % 0x400 < 0xE000 by omega)]
    have hval : 0x10000 + (0xD800 + (v - 0x10000) / 0x400 - 0xD800) * 0x400 +
        (0xDC00 + (v - 0x10000) % 0x400 - 0xDC00) = v := by omega
    rw [hval]

/-- UTF-16 round trip on scalar strings. -/
lemma utf16_roundtrip (s : List Nat) (hs : ValidScalars s) :
    utf16Decode (utf16Encode s) = some s := by
  induction s with
  | nil => rfl
  | cons v vs ih =>
    have hv : ValidScalar v := hs v (by simp)
    have hvs : ValidScalars vs := fun u hu => hs u (by simp [hu])
    show utf16Decode (utf16EncodeChar v ++ utf16Encode vs) = _
    rw [utf16Decode_encodeChar v _ hv, ih hvs]
    rfl

/-- Every UTF-16 code unit of a scalar string fits in 16 bits. -/
lemma utf16Encode_lt (s : List Nat) (hs : ValidScalars s) :
    ∀ u ∈ utf16Encode s, u < 0x10000 := by
  induction s with
  | nil => intro u hu; cases hu
  | cons v vs ih =>
    intro u hu
    have hv : ValidScalar v := hs v (by simp)
    obtain ⟨h1, h2⟩ := hv
    have hvs : ValidScalars vs := fun w hw => hs w (by simp [hw])
    rw [show utf16Encode (v :: vs) = utf16EncodeChar v ++ utf16Encode vs from rfl,
      List.mem_append] at hu
    rcases hu with hu | hu
    · unfold utf16EncodeChar at hu
      by_cases hbmp : v < 0x10000
      · rw [if_pos hbmp] at hu
        simp only [List.mem_singleton] at hu
        omega
      · rw [if_neg hbmp] at hu
        simp only [List.mem_cons, List.mem_singleton, List.not_mem_nil, or_false] at hu
        rcases hu with h | h <;> omega
    · exact ih hvs u hu

/-- No UTF-16 code unit of a scalar string avoiding U+0000 is zero. -/
lemma utf16Encode_ne_zero (s : List Nat) (hs : ValidScalars s) (h0 : 0 ∉ s) :
    ∀ u ∈ utf16Encode s, u ≠ 0 := by
  induction s with
  | nil => intro u hu; cases hu
  | cons v vs ih =>
    intro u hu
    have hv : ValidScalar v := hs v (by simp)
    obtain ⟨h1, h2⟩ := hv
    have hvs : ValidScalars vs := fun w hw => hs w (by simp [hw])
    have hv0 : v ≠ 0 := fun h => h0 (h ▸ List.mem_cons_self v vs)
    have h0' : 0 ∉ vs := fun h => h0 (List.mem_cons_of_mem v h)
    rw [show utf16Encode (v :: vs) = utf16EncodeChar v ++ utf16Encode vs from rfl,
      List.mem_append] at hu
    rcases hu with hu | hu
    · unfold utf16EncodeChar at hu
      by_cases hbmp : v < 0x10000
      · rw [if_pos hbmp] at hu
        simp only [List.mem_singleton] at hu
        omega
      · rw [if_neg hbmp] at hu
        simp only [List.mem_cons, List.mem_singleton, List.not_mem_nil, or_false] at hu
        rcases hu with h | h <;> omega
    · exact ih hvs h0' u hu

/-- Reading the little-endian byte image of 16-bit units back as units. -/
lemma bytesToWide_wideToBytes (us : List Nat) (h : ∀ u ∈ us, u < 0x10000) :
    bytesToWide (wideToBytes us) = us := by
  induction us with
  | nil => rfl
  | cons u us ih =>
    have hu : u < 0x10000 := h u (by simp)
    have hus : ∀ w ∈ us, w < 0x10000 := fun w hw => h w (by simp [hw])
    show (u % 0x100 + 0x100 * (u / 0x100)) :: bytesToWide (wideToBytes us) = u :: us
    rw [ih hus]
    congr 1
    omega

/-- The null-terminator scan of `read_text` recovers exactly the stored
units when none of them is zero. -/
lemma takeWhile_append_zero (l : List Nat) (h : ∀ u ∈ l, u ≠ 0) :
    (l ++ [0]).takeWhile (fun u => u != 0) = l := by
  induction l with
  | nil => rfl
  | cons u us ih =>
    have hu : u ≠ 0 := h u (by simp)
    have hus : ∀ w ∈ us, w ≠ 0 := fun w hw => h w (by simp [hw])
    simp only [List.cons_append, List.takeWhile_cons]
    rw [if_pos (by simpa using hu), ih hus]

lemma utf8Decode_cons (b : Nat) (rest : List Nat) :
    utf8Decode (b :: rest) =
      (if b < 0x80 then (utf8Decode rest).map (fun cs => b :: cs)
      else if b < 0xC2 then none
      else if b < 0xE0 then
        match rest with
        | b1 :: rest1 =>
          if 0x80 ≤ b1 ∧ b1 < 0xC0 then
            (utf8Decode rest1).map (fun cs => ((b - 0xC0) * 0x40 + (b1 - 0x80)) :: cs)
          else none
        | [] => none
      else if b < 0xF0 then
        match rest with
        | b1 :: b2 :: rest2 =>
          if (0x80 ≤ b1 ∧ b1 < 0xC0) ∧ (0x80 ≤ b2 ∧ b2 < 0xC0) ∧
              (b = 0xE0 → 0xA0 ≤ b1) ∧ (b = 0xED → b1 < 0xA0) then
            (utf8Decode rest2).map
              (fun cs => ((b - 0xE0) * 0x1000 + (b1 - 0x80) * 0x40 + (b2 - 0x80)) :: cs)
          else none
        | _ => none
      else if b < 0xF5 then
        match rest with
        | b1 :: b2 :: b3 :: rest3 =>
          if (0x80 ≤ b1 ∧ b1 < 0xC0) ∧ (0x80 ≤ b2 ∧ b2 < 0xC0) ∧
              (0x80 ≤ b3 ∧ b3 < 0xC0) ∧
              (b = 0xF0 → 0x90 ≤ b1) ∧ (b = 0xF4 → b1 < 0x90) then
            (utf8Decode rest3).map
              (fun cs => ((b - 0xF0) * 0x40000 + (b1 - 0x80) * 0x1000 +
                (b2 - 0x80) * 0x40 + (b3 - 0x80)) :: cs)
          else none
        | _ => none
      else none) := by
  rcases rest with _ | ⟨b1, _ | ⟨b2, _ | ⟨b3, rest3⟩⟩⟩ <;> rfl

/-- Decoding the UTF-8 encoding of one scalar value prepended to any tail
decodes the scalar and continues with the tail. -/
lemma utf8Decode_encodeChar (v : Nat) (rest : List Nat) (hv : ValidScalar v) :
    utf8Decode (utf8EncodeChar v ++ rest) =
      (utf8Decode rest).map (fun cs => v :: cs) := by
  obtain ⟨h1, h2⟩ := hv
  unfold utf8EncodeChar
  by_cases c1 : v < 0x80
  · rw [if_pos c1]
    simp only [List.cons_append, List.nil_append, utf8Decode_cons]
    rw [if_pos c1]
  · rw [if_neg c1]
    by_cases c2 : v < 0x800
    · rw [if_pos c2]
      simp only [List.cons_append, List.nil_append, utf8Decode_cons]
      rw [if_neg (by omega), if_neg (by omega), if_pos (by omega),
        if_pos (show 0x80 ≤ 0x80 + v % 0x40 ∧ 0x80 + v % 0x40 < 0xC0 by omega)]
      have hval : (0xC0 + v / 0x40 - 0xC0) * 0x40 + (0x80 + v % 0x40 - 0x80) = v := by
        omega
      rw [hval]
    · rw [if_neg c2]
      by_cases c3 : v < 0x10000
      · rw [if_pos c3]
        simp only [List.cons_append, List.nil_append, utf8Decode_cons]
        rw [if_neg (by omega), if_neg (by omega), if_neg (by omega),
          if_pos (by omega),
          if_pos (show (0x80 ≤ 0x80 + (v / 0x40) % 0x40 ∧ 0x80 + (v / 0x40) % 0x40 < 0xC0) ∧
            (0x80 ≤ 0x80 + v % 0x40 ∧ 0x80 + v % 0x40 < 0xC0) ∧
            (0xE0 + v / 0x1000 = 0xE0 → 0xA0 ≤ 0x80 + (v / 0x40) % 0x40) ∧
            (0xE0 + v / 0x1000 = 0xED → 0x80 + (v / 0x40) % 0x40 < 0xA0) by omega)]
        have hval : (0xE0 + v / 0x1000 - 0xE0) * 0x1000 +
            (0x80 + (v / 0x40) % 0x40 - 0x80) * 0x40 + (0x80 + v % 0x40 - 0x80) = v := by
          omega
        rw [hval]
      · rw [if_neg c3]
        simp only [List.cons_append, List.nil_append, utf8Decode_cons]
        rw [if_neg (by omega), if_neg (by omega), if_neg (by omega),
          if_neg (by omega), if_pos (by omega),
          if_pos (show (0x80 ≤ 0x80 + (v / 0x1000) % 0x40 ∧ 0x80 + (v / 0x1000) % 0x40 < 0xC0) ∧
            (0x80 ≤ 0x80 + (v / 0x40) % 0x40 ∧ 0x80 + (v / 0x40) % 0x40 < 0xC0) ∧
            (0x80 ≤ 0x80 + v % 0x40 ∧ 0x80 + v % 0x40 < 0xC0) ∧
            (0xF0 + v / 0x40000 = 0xF0 → 0x90 ≤ 0x80 + (v / 0x1000) % 0x40) ∧
            (0xF0 + v / 0x40000 = 0xF4 → 0x80 + (v / 0x1000) % 0x40 < 0x90) by omega)]
        have hval : (0xF0 + v / 0x40000 - 0xF0) * 0x40000 +
            (0x80 + (v / 0x1000) % 0x40 - 0x80) * 0x1000 +
            (0x80 + (v / 0x40) % 0x40 - 0x80) * 0x40 + (0x80 + v % 0x40 - 0x80) = v := by
          omega
        rw [hval]

/-- UTF-8 round trip on scalar strings. -/
lemma utf8_roundtrip (s : List Nat) (hs : ValidScalars s) :
    utf8Decode (utf8Encode s) = some s := by
  induction s with
  | nil => rfl
  | cons v vs ih =>
    have hv : ValidScalar v := hs v (by simp)
    have hvs : ValidScalars vs := fun u hu => hs u (by simp [hu])
    show utf8Decode (utf8EncodeChar v ++ utf8Encode vs) = _
    rw [utf8Decode_encodeChar v _ hv, ih hvs]
    rfl

end Clip

namespace Clip

lemma with_clipboard_pos {α : Type} (env : OsEnv) (f : ClipState → OpResult α)
    (st : ClipState) (h : env.openOk = true) :
    with_clipboard env f st =
      ⟨(f st).state, OsCall.openClipboard true :: (f st).calls ++ [OsCall.closeClipboard],
       (f st).log, some (f st).val⟩ := by
  unfold with_clipboard
  rw [if_pos h]

lemma with_clipboard_neg {α : Type} (env : OsEnv) (f : ClipState → OpResult α)
    (st : ClipState) (h : env.openOk = false) :
    with_clipboard env f st = ⟨st, [OsCall.openClipboard false], [], none⟩ := by
  unfold with_clipboard
  rw [if_neg (by simp [h])]

lemma read_text_pos (env : OsEnv) (st : ClipState) (h : env.openOk = true) :
    read_text env st =
      ⟨(read_text_body st).state,
       OsCall.openClipboard true :: (read_text_body st).calls ++ [OsCall.closeClipboard],
       (read_text_body st).log, (read_text_body st).val⟩ := by
  unfold read_text
  rw [with_clipboard_pos env read_text_body st h]
  rfl

lemma read_text_body_some (st : ClipState) (bs : List Nat)
    (h : lookupFmt st CF_UNICODETEXT = some bs) :
    read_text_body st =
      ⟨st, [OsCall.getClipboardData CF_UNICODETEXT], [],
       utf16Decode ((bytesToWide bs).takeWhile (fun u => u != 0))⟩ := by
  unfold read_text_body
  rw [h]

lemma put_formats_loop_cons (env : OsEnv) (format : ClipboardFormat)
    (rest : List ClipboardFormat) (st : ClipState) :
    put_formats_loop env (format :: rest) st =
      (match get_format_id env format.identifier with
      | (calls, log, none) =>
        let r := put_formats_loop env rest st
        (r.1, calls ++ r.2.1,
         log ++ ["failed to register clipboard format " ++ format.identifier] ++ r.2.2)
      | (calls, log, some format_id) =>
        if env.setOk then
          let r := put_formats_loop env rest (setFmt st format_id (make_handle format))
          (r.1, calls ++ [OsCall.setClipboardData format_id true] ++ r.2.1,
           log ++ r.2.2)
        else
          let r := put_formats_loop env rest st
          (r.1, calls ++ [OsCall.setClipboardData format_id false] ++ r.2.1,
           log ++ ["failed to set clipboard for fmt " ++ format.identifier ++
             ", error: " ++ toString env.lastError] ++ r.2.2)) := rfl

lemma text_not_standard :
    STANDARD_FORMATS.find? (fun p => p.2 == ClipboardFormat.TEXT) = none := by decide

lemma get_format_id_text (env : OsEnv) :
    get_format_id env ClipboardFormat.TEXT = ([], [], some CF_UNICODETEXT) := by
  unfold get_format_id
  rw [text_not_standard]
  rfl

lemma make_handle_text (s : List Nat) (hs : ValidScalars s) :
    make_handle (formatFromStr s) = wideToBytes (utf16Encode s ++ [0]) := by
  unfold make_handle formatFromStr fromUtf8Unchecked
  rw [if_pos rfl]
  simp only
  rw [utf8_roundtrip s hs]
  rfl

/-- C1: writing a NUL-free string and reading it back returns the same
string when every OS clipboard call succeeds. -/
theorem write_read_roundtrip (env : OsEnv) (s : List Nat) (st : ClipState)
    (hs : ValidScalars s) (h0 : 0 ∉ s)
    (hopen : env.openOk = true) (hset : env.setOk = true) :
    (read_text env (write_text env s st).state).val = some s := by
  have hloop : put_formats_loop env [formatFromStr s] [] =
      (setFmt [] CF_UNICODETEXT (make_handle (formatFromStr s)),
       [OsCall.setClipboardData CF_UNICODETEXT true], []) := by
    rw [put_formats_loop_cons]
    rw [show (formatFromStr s).identifier = ClipboardFormat.TEXT from rfl]
    rw [get_format_id_text]
    simp only
    rw [if_pos hset]
    rfl
  have hwrite : (write_text env s st).state =
      setFmt [] CF_UNICODETEXT (make_handle (formatFromStr s)) := by
    unfold write_text put_formats
    rw [with_clipboard_pos env _ st hopen]
    simp only
    rw [hloop]
  have hlookup : lookupFmt (setFmt [] CF_UNICODETEXT (make_handle (formatFromStr s)))
      CF_UNICODETEXT = some (make_handle (formatFromStr s)) := rfl
  have hbytes : bytesToWide (make_handle (formatFromStr s)) = utf16Encode s ++ [0] := by
    rw [make_handle_text s hs]
    apply bytesToWide_wideToBytes
    intro u hu
    rcases List.mem_append.mp hu with h | h
    · exact utf16Encode_lt s hs u h
    · simp only [List.mem_singleton] at h
      omega
  rw [hwrite, read_text_pos env _ hopen]
  simp only
  rw [read_text_body_some _ _ hlookup]
  simp only
  rw [hbytes, takeWhile_append_zero _ (utf16Encode_ne_zero s hs h0),
    utf16_roundtrip s hs]

theorem write_read_roundtrip_witness :
    ValidScalars [0x48, 0x1F600] ∧ 0 ∉ [0x48, 0x1F600] ∧
    (read_text ⟨true, fun _ => 0, true, 0⟩
      (write_text ⟨true, fun _ => 0, true, 0⟩ [0x48, 0x1F600] [(1, [7])]).state).val =
      some [0x48, 0x1F600] :=
  ⟨by decide, by decide,
   write_read_roundtrip ⟨true, fun _ => 0, true, 0⟩ [0x48, 0x1F600] [(1, [7])]
     (by decide) (by decide) rfl rfl⟩

end Clip

namespace Clip

lemma read_text_body_calls (st : ClipState) :
    (read_text_body st).calls = [OsCall.getClipboardData CF_UNICODETEXT] := by
  unfold read_text_body
  cases h : lookupFmt st CF_UNICODETEXT <;> rfl

/-- C2: with a successful open, `read_text` fetches the Unicode-text
handle; a null handle yields `none`, otherwise the UTF-16 decoding of the
units strictly before the first zero unit, `none` on decode failure. -/
theorem read_text_unicode_spec (env : OsEnv) (st : ClipState)
    (hopen : env.openOk = true) :
    (read_text env st).val =
      (match lookupFmt st CF_UNICODETEXT with
      | none => none
      | some handle => utf16Decode ((bytesToWide handle).takeWhile (fun u => u != 0))) ∧
    OsCall.getClipboardData CF_UNICODETEXT ∈ (read_text env st).calls := by
  rw [read_text_pos env st hopen]
  simp only
  constructor
  · unfold read_text_body
    cases h : lookupFmt st CF_UNICODETEXT <;> rfl
  · rw [read_text_body_calls]
    simp

theorem read_text_unicode_spec_witness :
    (⟨true, fun _ => 0, true, 0⟩ : OsEnv).openOk = true ∧
    ((read_text ⟨true, fun _ => 0, true, 0⟩ [(13, [0x41, 0x00, 0x00, 0x00])]).val =
      (match lookupFmt [(13, [0x41, 0x00, 0x00, 0x00])] CF_UNICODETEXT with
      | none => none
      | some handle =>
        utf16Decode ((bytesToWide handle).takeWhile (fun u => u != 0))) ∧
    OsCall.getClipboardData CF_UNICODETEXT ∈
      (read_text ⟨true, fun _ => 0, true, 0⟩ [(13, [0x41, 0x00, 0x00, 0x00])]).calls) :=
  ⟨rfl, read_text_unicode_spec ⟨true, fun _ => 0, true, 0⟩ [(13, [0x41, 0x00, 0x00, 0x00])] rfl⟩

/-- C9: the text handle path reinterprets the payload as UTF-8 without
validation; the format built by `write_text` always satisfies the implied
validity precondition, its data decoding back to the written string. -/
theorem write_text_data_valid_utf8 (s : List Nat) (hs : ValidScalars s) :
    (formatFromStr s).identifier = ClipboardFormat.TEXT ∧
    utf8Decode (formatFromStr s).data = some s ∧
    make_handle (formatFromStr s) = wideToBytes (utf16Encode s ++ [0]) :=
  ⟨rfl, utf8_roundtrip s hs, make_handle_text s hs⟩

theorem write_text_data_valid_utf8_witness :
    ValidScalars [0x7A, 0x1F600] ∧
    ((formatFromStr [0x7A, 0x1F600]).identifier = ClipboardFormat.TEXT ∧
    utf8Decode (formatFromStr [0x7A, 0x1F600]).data = some [0x7A, 0x1F600] ∧
    make_handle (formatFromStr [0x7A, 0x1F600]) =
      wideToBytes (utf16Encode [0x7A, 0x1F600] ++ [0])) :=
  ⟨by decide, write_text_data_valid_utf8 [0x7A, 0x1F600] (by decide)⟩

/-- C4: `get_format_id` resolves the standard table first, then the
hardcoded text identifier, then OS registration (which fails on a NUL byte
or a zero result). -/
theorem get_format_id_resolution (env : OsEnv) (format : String) :
    (get_format_id env format).2.2 =
      (match STANDARD_FORMATS.find? (fun p => p.2 == format) with
      | some p => some p.1
      | none =>
        if format = ClipboardFormat.TEXT then some CF_UNICODETEXT
        else if hasNulByte format then none
        else if env.regId format = 0 then none
        else some (env.regId format)) := by
  unfold get_format_id
  cases h : STANDARD_FORMATS.find? (fun p => p.2 == format) with
  | some p => rfl
  | none =>
    simp only
    by_cases ht : format = ClipboardFormat.TEXT
    · rw [if_pos ht, if_pos ht]
    · rw [if_neg ht, if_neg ht]
      unfold register_identifier
      by_cases hn : hasNulByte format
      · rw [if_pos hn, if_pos hn]
      · rw [if_neg hn, if_neg hn]
        by_cases hr : env.regId format = 0
        · rw [if_pos hr, if_pos hr]
        · rw [if_neg hr, if_neg hr]

lemma standard_formats_no_nul : ∀ p ∈ STANDARD_FORMATS, hasNulByte p.2 = false := by
  decide

/-- C10: an identifier with a NUL byte makes `register_identifier` give up
before any OS call, and `put_formats` skips the format with two log lines
while still processing the remaining formats. -/
theorem nul_identifier_skipped (env : OsEnv) (f : ClipboardFormat)
    (rest : List ClipboardFormat) (st0 : ClipState)
    (hnul : hasNulByte f.identifier = true) :
    register_identifier env f.identifier =
      ([], ["Null byte in clipboard identifier '" ++ f.identifier ++ "'"], none) ∧
    put_formats_loop env (f :: rest) st0 =
      ((put_formats_loop env rest st0).1,
       (put_formats_loop env rest st0).2.1,
       ["Null byte in clipboard identifier '" ++ f.identifier ++ "'",
        "failed to register clipboard format " ++ f.identifier] ++
         (put_formats_loop env rest st0).2.2) := by
  have hreg : register_identifier env f.identifier =
      ([], ["Null byte in clipboard identifier '" ++ f.identifier ++ "'"], none) := by
    unfold register_identifier
    rw [if_pos hnul]
  have hfind : STANDARD_FORMATS.find? (fun p => p.2 == f.identifier) = none := by
    rw [List.find?_eq_none]
    intro p hp hbeq
    have hp2 : hasNulByte p.2 = false := standard_formats_no_nul p hp
    rw [eq_of_beq hbeq, hnul] at hp2
    simp at hp2
  have htext : f.identifier ≠ ClipboardFormat.TEXT := by
    intro h
    have hno : hasNulByte ClipboardFormat.TEXT = false := by decide
    rw [h, hno] at hnul
    exact Bool.false_ne_true hnul
  have hfmt : get_format_id env f.identifier =
      ([], ["Null byte in clipboard identifier '" ++ f.identifier ++ "'"], none) := by
    unfold get_format_id
    rw [hfind]
    simp only
    rw [if_neg htext, hreg]
  refine ⟨hreg, ?_⟩
  rw [put_formats_loop_cons, hfmt]
  rfl

theorem nul_identifier_skipped_witness :
    hasNulByte (ClipboardFormat.mk "bad\x00name" [1, 2]).identifier = true ∧
    (register_identifier ⟨true, fun _ => 55, true, 0⟩
        (ClipboardFormat.mk "bad\x00name" [1, 2]).identifier =
      ([], ["Null byte in clipboard identifier '" ++
        (ClipboardFormat.mk "bad\x00name" [1, 2]).identifier ++ "'"], none) ∧
    put_formats_loop ⟨true, fun _ => 55, true, 0⟩
        [ClipboardFormat.mk "bad\x00name" [1, 2], ClipboardFormat.mk "CF_TEXT" [9]] [] =
      ((put_formats_loop ⟨true, fun _ => 55, true, 0⟩
          [ClipboardFormat.mk "CF_TEXT" [9]] []).1,
       (put_formats_loop ⟨true, fun _ => 55, true, 0⟩
          [ClipboardFormat.mk "CF_TEXT" [9]] []).2.1,
       ["Null byte in clipboard identifier '" ++
          (ClipboardFormat.mk "bad\x00name" [1, 2]).identifier ++ "'",
        "failed to register clipboard format " ++
          (ClipboardFormat.mk "bad\x00name" [1, 2]).identifier] ++
         (put_formats_loop ⟨true, fun _ => 55, true, 0⟩
            [ClipboardFormat.mk "CF_TEXT" [9]] []).2.2)) :=
  ⟨by decide,
   nul_identifier_skipped ⟨true, fun _ => 55, true, 0⟩
     (ClipboardFormat.mk "bad\x00name" [1, 2])
     [ClipboardFormat.mk "CF_TEXT" [9]] [] (by decide)⟩

end Clip

namespace Clip

lemma wideToBytes_length (us : List Nat) : (wideToBytes us).length = us.length * 2 := by
  induction us with
  | nil => rfl
  | cons u us ih =>
    show (wideToBytes us).length + 1 + 1 = (us.length + 1) * 2
    omega

lemma make_handle_length (g : ClipboardFormat) :
    (make_handle g).length =
      if g.identifier = ClipboardFormat.TEXT then
        ((utf16Encode (fromUtf8Unchecked g.data)).length + 1) * 2
      else g.data.length := by
  unfold make_handle
  by_cases h : g.identifier = ClipboardFormat.TEXT
  · rw [if_pos h, if_pos h, wideToBytes_length, List.length_append]
    rfl
  · rw [if_neg h, if_neg h]

/-- C3: with a successful open, `put_formats` empties the clipboard before
the per-format loop; each resolvable format's handle (sized to the
payload, the text format gaining a null terminator of wide size) is handed
to `SetClipboardData` under the resolved id; an unresolvable format is
skipped with a log line and the remaining formats are still processed. -/
theorem put_formats_empties_then_sets (env : OsEnv)
    (formats : List ClipboardFormat) (st : ClipState)
    (f1 f2 : ClipboardFormat) (rest1 rest2 : List ClipboardFormat)
    (st1 st2 : ClipState) (g1calls g2calls : List OsCall)
    (g1log g2log : List String) (fid : Nat)
    (hopen : env.openOk = true) (hset : env.setOk = true)
    (h1 : get_format_id env f1.identifier = (g1calls, g1log, none))
    (h2 : get_format_id env f2.identifier = (g2calls, g2log, some fid)) :
    (put_formats env formats st).calls =
      OsCall.openClipboard true :: OsCall.emptyClipboard ::
        (put_formats_loop env formats []).2.1 ++ [OsCall.closeClipboard] ∧
    (put_formats env formats st).state = (put_formats_loop env formats []).1 ∧
    (∀ g : ClipboardFormat, (make_handle g).length =
      if g.identifier = ClipboardFormat.TEXT then
        ((utf16Encode (fromUtf8Unchecked g.data)).length + 1) * 2
      else g.data.length) ∧
    put_formats_loop env (f2 :: rest2) st2 =
      ((put_formats_loop env rest2 (setFmt st2 fid (make_handle f2))).1,
       g2calls ++ [OsCall.setClipboardData fid true] ++
         (put_formats_loop env rest2 (setFmt st2 fid (make_handle f2))).2.1,
       g2log ++ (put_formats_loop env rest2 (setFmt st2 fid (make_handle f2))).2.2) ∧
    put_formats_loop env (f1 :: rest1) st1 =
      ((put_formats_loop env rest1 st1).1,
       g1calls ++ (put_formats_loop env rest1 st1).2.1,
       g1log ++ ["failed to register clipboard format " ++ f1.identifier] ++
         (put_formats_loop env rest1 st1).2.2) := by
  refine ⟨?_, ?_, make_handle_length, ?_, ?_⟩
  · unfold put_formats
    rw [with_clipboard_pos env _ st hopen]
  · unfold put_formats
    rw [with_clipboard_pos env _ st hopen]
  · rw [put_formats_loop_cons, h2]
    simp only
    rw [if_pos hset]
  · rw [put_formats_loop_cons, h1]

theorem put_formats_empties_then_sets_witness :
    (⟨true, fun _ => 0, true, 9⟩ : OsEnv).openOk = true ∧
    (⟨true, fun _ => 0, true, 9⟩ : OsEnv).setOk = true ∧
    get_format_id ⟨true, fun _ => 0, true, 9⟩
      (ClipboardFormat.mk "custom/fmt" [3]).identifier =
      ([OsCall.registerFormat "custom/fmt" false],
       ["failed to register clipboard format 'custom/fmt'; error 9."], none) ∧
    get_format_id ⟨true, fun _ => 0, true, 9⟩
      (ClipboardFormat.mk "CF_WAVE" [4]).identifier = ([], [], some 12) ∧
    (put_formats ⟨true, fun _ => 0, true, 9⟩ [ClipboardFormat.mk "CF_WAVE" [4]]
        [(2, [8])]).calls =
      OsCall.openClipboard true :: OsCall.emptyClipboard ::
        (put_formats_loop ⟨true, fun _ => 0, true, 9⟩
          [ClipboardFormat.mk "CF_WAVE" [4]] []).2.1 ++ [OsCall.closeClipboard] :=
  ⟨rfl, rfl, by decide, by decide,
   (put_formats_empties_then_sets ⟨true, fun _ => 0, true, 9⟩
     [ClipboardFormat.mk "CF_WAVE" [4]] [(2, [8])]
     (ClipboardFormat.mk "custom/fmt" [3]) (ClipboardFormat.mk "CF_WAVE" [4])
     [] [] [] [] [OsCall.registerFormat "custom/fmt" false] []
     ["failed to register clipboard format 'custom/fmt'; error 9."] [] 12
     rfl rfl (by decide) (by decide)).1⟩

end Clip

namespace Clip

lemma read_text_neg (env : OsEnv) (st : ClipState) (h : env.openOk = false) :
    read_text env st = ⟨st, [OsCall.openClipboard false], [], none⟩ := by
  unfold read_text
  rw [with_clipboard_neg env read_text_body st h]
  rfl

/-- C5 counterexample: an OpenClipboard failure occurs (it is recorded in
the call trace) yet nothing is logged, for a write and for a read. -/
theorem open_failure_not_logged :
    (put_formats ⟨false, fun _ => 1, true, 0⟩
      [ClipboardFormat.mk "CF_TEXT" [1]] [(3, [7])]).calls =
        [OsCall.openClipboard false] ∧
    (put_formats ⟨false, fun _ => 1, true, 0⟩
      [ClipboardFormat.mk "CF_TEXT" [1]] [(3, [7])]).log = [] ∧
    (read_text ⟨false, fun _ => 1, true, 0⟩ [(3, [7])]).calls =
        [OsCall.openClipboard false] ∧
    (read_text ⟨false, fun _ => 1, true, 0⟩ [(3, [7])]).log = [] := by
  refine ⟨rfl, rfl, ?_, ?_⟩ <;> rw [read_text_neg _ _ rfl]

/-- C5 (amended): format-registration failures and SetClipboardData
failures are logged and the operation continues; an OpenClipboard failure
is NOT logged — the write silently leaves the clipboard unchanged and the
read returns nothing. -/
theorem os_failures_logged_except_open (envO envR envS : OsEnv)
    (stO : ClipState) (ident : String)
    (f : ClipboardFormat) (rest : List ClipboardFormat) (st0 : ClipState)
    (gcalls : List OsCall) (glog : List String) (fid : Nat)
    (formats : List ClipboardFormat)
    (hO : envO.openOk = false)
    (hRn : hasNulByte ident = false) (hR : envR.regId ident = 0)
    (hS : envS.setOk = false)
    (hf : get_format_id envS f.identifier = (gcalls, glog, some fid)) :
    register_identifier envR ident =
      ([OsCall.registerFormat ident false],
       ["failed to register clipboard format '" ++ ident ++ "'; error " ++
         toString envR.lastError ++ "."], none) ∧
    put_formats_loop envS (f :: rest) st0 =
      ((put_formats_loop envS rest st0).1,
       gcalls ++ [OsCall.setClipboardData fid false] ++
         (put_formats_loop envS rest st0).2.1,
       glog ++ ["failed to set clipboard for fmt " ++ f.identifier ++ ", error: " ++
         toString envS.lastError] ++ (put_formats_loop envS rest st0).2.2) ∧
    put_formats envO formats stO = ⟨stO, [OsCall.openClipboard false], [], none⟩ ∧
    read_text envO stO = ⟨stO, [OsCall.openClipboard false], [], none⟩ := by
  refine ⟨?_, ?_, ?_, ?_⟩
  · unfold register_identifier
    rw [if_neg (by simp [hRn]), if_pos hR]
  · rw [put_formats_loop_cons, hf]
    simp only
    rw [if_neg (by simp [hS])]
  · unfold put_formats
    rw [with_clipboard_neg envO _ stO hO]
  · exact read_text_neg envO stO hO

theorem os_failures_logged_except_open_witness :
    (⟨false, fun _ => 2, true, 0⟩ : OsEnv).openOk = false ∧
    hasNulByte "my/fmt" = false ∧
    (⟨true, fun _ => 0, true, 7⟩ : OsEnv).regId "my/fmt" = 0 ∧
    (⟨true, fun _ => 3, false, 6⟩ : OsEnv).setOk = false ∧
    get_format_id ⟨true, fun _ => 3, false, 6⟩
      (ClipboardFormat.mk "CF_DIB" [5]).identifier = ([], [], some 8) ∧
    register_identifier ⟨true, fun _ => 0, true, 7⟩ "my/fmt" =
      ([OsCall.registerFormat "my/fmt" false],
       ["failed to register clipboard format '" ++ "my/fmt" ++ "'; error " ++
         toString (7 : Nat) ++ "."], none) :=
  ⟨rfl, by decide, rfl, rfl, by decide,
   (os_failures_logged_except_open ⟨false, fun _ => 2, true, 0⟩
     ⟨true, fun _ => 0, true, 7⟩ ⟨true, fun _ => 3, false, 6⟩
     [] "my/fmt" (ClipboardFormat.mk "CF_DIB" [5]) [] [] [] [] 8 []
     rfl (by decide) rfl rfl (by decide)).1⟩

lemma get_format_id_no_open (env : OsEnv) (format : String) :
    ((get_format_id env format).1).countP isOpenCall = 0 := by
  unfold get_format_id register_identifier
  cases h : STANDARD_FORMATS.find? (fun p => p.2 == format) with
  | some p => rfl
  | none =>
    simp only
    by_cases ht : format = ClipboardFormat.TEXT
    · rw [if_pos ht]
      rfl
    · rw [if_neg ht]
      by_cases hn : hasNulByte format
      · rw [if_pos hn]
        rfl
      · rw [if_neg hn]
        by_cases hr : env.regId format = 0
        · rw [if_pos hr]
          rfl
        · rw [if_neg hr]
          rfl

lemma put_formats_loop_no_open (env : OsEnv) (formats : List ClipboardFormat) :
    ∀ st : ClipState, ((put_formats_loop env formats st).2.1).countP isOpenCall = 0 := by
  induction formats with
  | nil => intro st; rfl
  | cons f rest ih =>
    intro st
    rw [put_formats_loop_cons]
    have hc := get_format_id_no_open env f.identifier
    rcases hg : get_format_id env f.identifier with ⟨calls, log, o⟩
    rw [hg] at hc
    have hc' : calls.countP isOpenCall = 0 := hc
    cases o with
    | none =>
      show ((calls ++ (put_formats_loop env rest st).2.1).countP isOpenCall) = 0
      rw [List.countP_append]
      have := ih st
      omega
    | some fid =>
      by_cases hset : env.setOk
      · simp only
        rw [if_pos hset]
        show ((calls ++ [OsCall.setClipboardData fid true] ++
          (put_formats_loop env rest
            (setFmt st fid (make_handle f))).2.1).countP isOpenCall) = 0
        rw [List.countP_append, List.countP_append]
        have := ih (setFmt st fid (make_handle f))
        have hone : ([OsCall.setClipboardData fid true]).countP isOpenCall = 0 := rfl
        omega
      · simp only
        rw [if_neg hset]
        show ((calls ++ [OsCall.setClipboardData fid false] ++
          (put_formats_loop env rest st).2.1).countP isOpenCall) = 0
        rw [List.countP_append, List.countP_append]
        have := ih st
        have hone : ([OsCall.setClipboardData fid false]).countP isOpenCall = 0 := rfl
        omega

end Clip

namespace Clip

/-- C6: each operation attempts OpenClipboard exactly once, closes iff the
open succeeded, and a failed open leaves the contents untouched with no
EmptyClipboard or SetClipboardData call and an empty read result. -/
theorem clipboard_open_close_balanced (env envF : OsEnv) (st stF : ClipState)
    (formats formatsF : List ClipboardFormat)
    (hF : envF.openOk = false) :
    ((read_text env st).calls).countP isOpenCall = 1 ∧
    ((put_formats env formats st).calls).countP isOpenCall = 1 ∧
    (OsCall.closeClipboard ∈ (read_text env st).calls ↔ env.openOk = true) ∧
    (OsCall.closeClipboard ∈ (put_formats env formats st).calls ↔ env.openOk = true) ∧
    (put_formats envF formatsF stF).state = stF ∧
    (put_formats envF formatsF stF).val = none ∧
    (read_text envF stF).state = stF ∧
    (read_text envF stF).val = none ∧
    OsCall.emptyClipboard ∉ (put_formats envF formatsF stF).calls ∧
    (∀ fid ok, OsCall.setClipboardData fid ok ∉ (put_formats envF formatsF stF).calls) := by
  have hputF : put_formats envF formatsF stF =
      ⟨stF, [OsCall.openClipboard false], [], none⟩ := by
    unfold put_formats
    rw [with_clipboard_neg envF _ stF hF]
  have hreadF := read_text_neg envF stF hF
  refine ⟨?_, ?_, ?_, ?_, ?_, ?_, ?_, ?_, ?_, ?_⟩
  · cases ho : env.openOk with
    | true =>
      rw [read_text_pos env st ho, read_text_body_calls]
      rfl
    | false =>
      rw [read_text_neg env st ho]
      rfl
  · cases ho : env.openOk with
    | true =>
      unfold put_formats
      rw [with_clipboard_pos env _ st ho]
      simp only
      have h0 := put_formats_loop_no_open env formats []
      simp [List.countP_cons, List.countP_append, isOpenCall, h0]
    | false =>
      unfold put_formats
      rw [with_clipboard_neg env _ st ho]
      rfl
  · cases ho : env.openOk with
    | true =>
      rw [read_text_pos env st ho]
      simp
    | false =>
      rw [read_text_neg env st ho]
      simp
  · cases ho : env.openOk with
    | true =>
      unfold put_formats
      rw [with_clipboard_pos env _ st ho]
      simp
    | false =>
      unfold put_formats
      rw [with_clipboard_neg env _ st ho]
      simp
  · rw [hputF]
  · rw [hputF]
  · rw [hreadF]
  · rw [hreadF]
  · rw [hputF]
    simp
  · intro fid ok
    rw [hputF]
    simp

theorem clipboard_open_close_balanced_witness :
    (⟨false, fun _ => 4, true, 0⟩ : OsEnv).openOk = false ∧
    ((read_text ⟨true, fun _ => 4, true, 0⟩ [(13, [65, 0])]).calls).countP
      isOpenCall = 1 ∧
    (read_text ⟨false, fun _ => 4, true, 0⟩ [(13, [65, 0])]).val = none :=
  ⟨rfl,
   ((clipboard_open_close_balanced ⟨true, fun _ => 4, true, 0⟩
      ⟨false, fun _ => 4, true, 0⟩ [(13, [65, 0])] [(13, [65, 0])] [] [] rfl)).1,
   ((clipboard_open_close_balanced ⟨true, fun _ => 4, true, 0⟩
      ⟨false, fun _ => 4, true, 0⟩ [(13, [65, 0])] [(13, [65, 0])] [] [] rfl)).2.2.2.2.2.2.2.1⟩

end Clip

namespace About

/-- C7: the window-close and Ok-button callbacks registered by
`about_main` both exit the process with status 0. -/
theorem about_close_and_ok_exit :
    UiCall.uiWindowOnClosing on_window_close ∈ (about_main none).calls ∧
    UiCall.uiButtonOnClicked on_ok_button_clicked ∈ (about_main none).calls ∧
    on_window_close () = ProcAction.exitWith 0 ∧
    on_ok_button_clicked () = ProcAction.exitWith 0 := by
  refine ⟨?_, ?_, rfl, rfl⟩ <;> simp [about_main]

/-- C8: a non-null uiInit error is logged and `about_main` panics before
creating any window; on success it does not panic. -/
theorem about_init_error_logs_and_panics (e : String) :
    about_main (some e) =
      ⟨["libui init error: " ++ e], true, [UiCall.uiInit]⟩ ∧
    (∀ title x y m, UiCall.uiNewWindow title x y m ∉ (about_main (some e)).calls) ∧
    (about_main none).panicked = false ∧
    (about_main none).log = [] := by
  refine ⟨rfl, ?_, rfl, rfl⟩
  intro title x y m hmem
  simp only [about_main, List.mem_singleton] at hmem
  exact UiCall.noConfusion hmem

end About
